import Mathlib

/-!
Shallow embedding of the DevLog persistence layer (`src/lib/devlog/db.ts`,
types from `src/lib/devlog/types.ts`).

Modelling conventions:
* SQLite tables are Lean lists of row structures, in rowid (insertion) order.
* `TEXT` timestamps produced by `datetime('now')` are modelled as an abstract
  clock value of type `Nat` passed explicitly to each mutating operation
  (SQLite datetime strings compare chronologically, so `Nat` order is faithful).
* The filesystem is an association list from paths to byte lists.
* JavaScript string truthiness (`if (s)`, `s || x`) is nonemptiness.
* `Math.random()`-derived values and the `DEVLOG_STORAGE_TYPE` environment
  switch are explicit parameters of the operations that consult them.
-/

namespace DevLog

/-- `EntryType` from types.ts: 'change_request' | 'bug_report' | 'note'. -/
inductive EntryType where
  | change_request
  | bug_report
  | note
deriving DecidableEq, Repr

/-- `Priority` from types.ts: 'low' | 'medium' | 'high' | 'critical'. -/
inductive Priority where
  | low
  | medium
  | high
  | critical
deriving DecidableEq, Repr

/-- `StorageType` from types.ts: 'filesystem' | 'blob'. -/
inductive StorageType where
  | filesystem
  | blob
deriving DecidableEq, Repr

/-- JS truthiness of a string: `''` is falsy, every other string truthy. -/
def strTruthy (s : String) : Bool :=
  !s.data.isEmpty

/-- JS `x || null` on an optional string: an empty string collapses to null. -/
def jsStrOrNull : Option String → Option String
  | some s => if strTruthy s then some s else none
  | none => none

/-- A row of the `entries` table (see the CREATE TABLE in getDb). -/
structure EntryRow where
  id : Nat
  entry_id : String
  type : EntryType
  title : String
  description : String
  priority : Option Priority
  is_complete : Nat
  page_url : String
  page_path : String
  user_agent : Option String
  created_at : Nat
  updated_at : Nat
deriving DecidableEq, Repr

/-- A row of the `attachments` table (see the CREATE TABLE in getDb). -/
structure AttachmentRow where
  id : Nat
  entry_id : String
  filename : String
  original_name : String
  mime_type : String
  size_bytes : Nat
  storage_type : StorageType
  blob_data : Option (List Nat)
  file_path : Option String
  created_at : Nat
deriving DecidableEq, Repr

/-- The `counters` table: exactly one row per entry type (seeded by the schema). -/
structure Counters where
  change_request : Nat
  bug_report : Nat
  note : Nat
deriving DecidableEq, Repr

/-- `SELECT next_number FROM counters WHERE type = t`. -/
def counterGet (c : Counters) : EntryType → Nat
  | .change_request => c.change_request
  | .bug_report => c.bug_report
  | .note => c.note

/-- `UPDATE counters SET next_number = next_number + 1 WHERE type = t`. -/
def counterInc (c : Counters) : EntryType → Counters
  | .change_request => { c with change_request := c.change_request + 1 }
  | .bug_report => { c with bug_report := c.bug_report + 1 }
  | .note => { c with note := c.note + 1 }

/-- The SQLite database: three tables plus the AUTOINCREMENT cursors. -/
structure Db where
  entries : List EntryRow
  attachments : List AttachmentRow
  counters : Counters
  nextEntryRowId : Nat
  nextAttachmentId : Nat
deriving DecidableEq, Repr

/-- The local filesystem: paths mapped to file contents. -/
def Fs : Type := List (String × List Nat)

instance : DecidableEq Fs := by
  unfold Fs
  infer_instance

/-- Whole-world state: the singleton database plus the filesystem. -/
structure St where
  db : Db
  fs : Fs
deriving DecidableEq

/-- `fs.existsSync` + `fs.readFileSync` combined: content at a path, if present. -/
def fsRead (fs : Fs) (p : String) : Option (List Nat) :=
  (fs.find? (fun f => f.1 == p)).map (fun f => f.2)

/-- `fs.writeFileSync`: create or overwrite the file at a path. -/
def fsWrite (fs : Fs) (p : String) (content : List Nat) : Fs :=
  (p, content) :: fs.filter (fun f => f.1 != p)

/-- `fs.unlinkSync` wrapped in try/catch: remove the file, missing is a no-op. -/
def fsUnlink (fs : Fs) (p : String) : Fs :=
  fs.filter (fun f => f.1 != p)

/-- `fs.rmSync(dir, {recursive, force})`: drop the path and everything under it. -/
def fsRmRecursive (fs : Fs) (dir : String) : Fs :=
  fs.filter (fun f => !(f.1 == dir || f.1.startsWith (dir ++ "/")))

/-- `getUploadsDir()`: `path.resolve(cwd, '..', '.devlog', 'uploads')`, modelled
as the fixed resolved path. -/
def uploadsDir : String := "../.devlog/uploads"

-- --- Entry ID Generation ---

/-- The `PREFIXES` record from db.ts. -/
def PREFIXES : EntryType → String
  | .change_request => "CR"
  | .bug_report => "BUG"
  | .note => "NOTE"

/-- JS `String(num).padStart(3, '0')`. -/
def padStart3 (n : Nat) : String :=
  let s := toString n
  if s.length < 3 then String.mk (List.replicate (3 - s.length) '0') ++ s else s

/-- `getNextEntryId`: atomically post-increment the per-type counter
(`UPDATE ... SET next_number = next_number + 1 ... RETURNING next_number - 1`)
and format the pre-increment value with the type's prefix. -/
def getNextEntryId (t : EntryType) (db : Db) : String × Db :=
  let num := counterGet db.counters t
  (PREFIXES t ++ "-" ++ padStart3 num,
   { db with counters := counterInc db.counters t })

-- --- Row Mappers / public shapes ---

/-- `Attachment` from types.ts, as produced by `mapAttachment`. -/
structure Attachment where
  id : Nat
  entryId : String
  filename : String
  originalName : String
  mimeType : String
  sizeBytes : Nat
  storageType : StorageType
  filePath : Option String
  createdAt : Nat
deriving DecidableEq, Repr

/-- `DevLogEntry` from types.ts, as produced by `mapEntry`.  Note that
`mapEntry` in db.ts builds an object literal with no `submittedBy` key, so the
field reads as absent (`undefined`) at runtime even though types.ts declares
`submittedBy: string | null`; we model that absent value as `none`. -/
structure DevLogEntry where
  id : Nat
  entryId : String
  type : EntryType
  title : String
  description : String
  priority : Option Priority
  isComplete : Bool
  submittedBy : Option String
  pageUrl : String
  pagePath : String
  userAgent : Option String
  createdAt : Nat
  updatedAt : Nat
  attachments : List Attachment
deriving DecidableEq, Repr

/-- `mapAttachment` from db.ts (the `blob_data` column is not exposed). -/
def mapAttachment (row : AttachmentRow) : Attachment :=
  { id := row.id
    entryId := row.entry_id
    filename := row.filename
    originalName := row.original_name
    mimeType := row.mime_type
    sizeBytes := row.size_bytes
    storageType := row.storage_type
    filePath := row.file_path
    createdAt := row.created_at }

/-- `mapEntry` from db.ts.  `row.description || ''` is the identity on strings
(`''` maps to `''`); `submittedBy` is omitted from the object literal. -/
def mapEntry (row : EntryRow) (attachments : List Attachment) : DevLogEntry :=
  { id := row.id
    entryId := row.entry_id
    type := row.type
    title := row.title
    description := row.description
    priority := row.priority
    isComplete := row.is_complete == 1
    submittedBy := none
    pageUrl := row.page_url
    pagePath := row.page_path
    userAgent := row.user_agent
    createdAt := row.created_at
    updatedAt := row.updated_at
    attachments := attachments }

/-- Insert into a sorted list, keeping earlier elements first on ties. -/
def insertBy {α : Type} (le : α → α → Bool) (a : α) : List α → List α
  | [] => [a]
  | b :: l => if le a b then a :: b :: l else b :: insertBy le a l

/-- Stable insertion sort, modelling SQL `ORDER BY`. -/
def sortBy {α : Type} (le : α → α → Bool) : List α → List α
  | [] => []
  | a :: l => insertBy le a (sortBy le l)

/-- The attachments of one entry, as each query fetches them:
`SELECT * FROM attachments WHERE entry_id = ? ORDER BY created_at ASC`. -/
def attachmentsOf (db : Db) (entryId : String) : List Attachment :=
  (sortBy (fun a b => decide (a.created_at ≤ b.created_at))
      (db.attachments.filter (fun a => a.entry_id == entryId))).map mapAttachment

-- --- CRUD Operations ---

/-- `CreateEntryDto` from types.ts. -/
structure CreateEntryDto where
  type : EntryType
  title : String
  description : Option String
  priority : Option Priority
  submittedBy : Option String
  pageUrl : String
  pagePath : String
  userAgent : Option String
deriving DecidableEq, Repr

/-- `UpdateEntryDto` from types.ts (`priority?: Priority | null` is an optional,
nullable field). -/
structure UpdateEntryDto where
  title : Option String
  description : Option String
  priority : Option (Option Priority)
  isComplete : Option Bool
deriving DecidableEq, Repr

/-- Filter options accepted by `listEntries`. -/
structure ListOptions where
  pagePath : Option String
  type : Option EntryType
  includeComplete : Bool
deriving DecidableEq, Repr

/-- Result shape of `listEntries` (`EntryListResponse` in types.ts). -/
structure EntryListResponse where
  entries : List DevLogEntry
  total : Nat
  openCount : Nat
deriving DecidableEq, Repr

/-- The `page_path` condition of `listEntries`: pushed only when the option is
supplied and truthy (`if (options.pagePath)`). -/
def pagePathCond (pp : Option String) (e : EntryRow) : Bool :=
  match pp with
  | some p => if strTruthy p then e.page_path == p else true
  | none => true

/-- The full WHERE clause assembled by `listEntries` for the entry query:
page path (when truthy), type (when supplied; entry-type strings are always
truthy), and `is_complete = 0` unless `includeComplete`. -/
def listWhere (o : ListOptions) (e : EntryRow) : Bool :=
  pagePathCond o.pagePath e
    && (match o.type with
        | some t => e.type == t
        | none => true)
    && (o.includeComplete || e.is_complete == 0)

/-- `listEntries` from db.ts: filtered entries ordered by `created_at DESC`,
hydrated with their attachments, plus the open count, whose query is rebuilt
from `is_complete = 0` and the page-path condition only (the type and
completion filters are deliberately not part of it). -/
def listEntries (db : Db) (o : ListOptions) : EntryListResponse :=
  let rows := sortBy (fun a b => decide (b.created_at ≤ a.created_at))
      (db.entries.filter (listWhere o))
  let mapped := rows.map (fun e => mapEntry e (attachmentsOf db e.entry_id))
  let openCount :=
    (db.entries.filter (fun e => e.is_complete == 0 && pagePathCond o.pagePath e)).length
  { entries := mapped, total := mapped.length, openCount := openCount }

/-- `getEntry` from db.ts: first row with the given `entry_id`, hydrated. -/
def getEntry (db : Db) (entryId : String) : Option DevLogEntry :=
  (db.entries.find? (fun e => e.entry_id == entryId)).map
    (fun row => mapEntry row (attachmentsOf db entryId))

/-- `createEntry` from db.ts: allocate the ID, INSERT with the JS defaulting
(`dto.description || ''`, `dto.priority || null`, `dto.userAgent || null`;
`dto.submittedBy` is not part of the INSERT), then re-read via `getEntry`.
The source dereferences the result with `!`; we keep the `Option`. -/
def createEntry (db : Db) (dto : CreateEntryDto) (now : Nat) : Option DevLogEntry × Db :=
  let r := getNextEntryId dto.type db
  let entryId := r.1
  let db1 := r.2
  let row : EntryRow :=
    { id := db1.nextEntryRowId
      entry_id := entryId
      type := dto.type
      title := dto.title
      description := dto.description.getD ""
      priority := dto.priority
      is_complete := 0
      page_url := dto.pageUrl
      page_path := dto.pagePath
      user_agent := jsStrOrNull dto.userAgent
      created_at := now
      updated_at := now }
  let db2 := { db1 with
    entries := db1.entries ++ [row]
    nextEntryRowId := db1.nextEntryRowId + 1 }
  (getEntry db2 entryId, db2)

/-- The row transformation performed by the UPDATE statement that
`updateEntry` assembles: `updated_at` always, plus each field present in the
partial payload. -/
def applyUpdate (dto : UpdateEntryDto) (now : Nat) (r : EntryRow) : EntryRow :=
  { r with
    updated_at := now
    title := dto.title.getD r.title
    description := dto.description.getD r.description
    priority := match dto.priority with
      | some p => p
      | none => r.priority
    is_complete := match dto.isComplete with
      | some b => if b then 1 else 0
      | none => r.is_complete }

/-- `updateEntry` from db.ts: not-found check via `getEntry`, then the UPDATE
on every row matching the `entry_id`, then a re-read. -/
def updateEntry (db : Db) (entryId : String) (dto : UpdateEntryDto) (now : Nat) :
    Option DevLogEntry × Db :=
  match getEntry db entryId with
  | none => (none, db)
  | some _ =>
    let db1 := { db with
      entries := db.entries.map
        (fun r => if r.entry_id == entryId then applyUpdate dto now r else r) }
    (getEntry db1 entryId, db1)

/-- `deleteEntry` from db.ts: unlink each filesystem-backed attachment file
(truthy paths only, missing files swallowed), recursively remove the entry's
upload directory, DELETE the entry rows (attachment rows go with them via the
`ON DELETE CASCADE` foreign key), and report whether any row was removed. -/
def deleteEntry (st : St) (entryId : String) : Bool × St :=
  let fsAtts := st.db.attachments.filter
    (fun a => a.entry_id == entryId && a.storage_type == StorageType.filesystem)
  let fs1 := fsAtts.foldl
    (fun fs a =>
      match a.file_path with
      | some p => if strTruthy p then fsUnlink fs p else fs
      | none => fs)
    st.fs
  let entryDir := uploadsDir ++ "/" ++ entryId
  let fs2 := fsRmRecursive fs1 entryDir
  let changes := (st.db.entries.filter (fun e => e.entry_id == entryId)).length
  let db1 := { st.db with
    entries := st.db.entries.filter (fun e => e.entry_id != entryId)
    attachments := st.db.attachments.filter (fun a => a.entry_id != entryId) }
  (decide (0 < changes), { db := db1, fs := fs2 })

-- --- Attachment Operations ---

/-- The file payload handed to `addAttachment`. -/
structure FileInput where
  name : String
  type : String
  size : Nat
  buffer : List Nat
deriving DecidableEq, Repr

/-- The filename sanitization of `addAttachment`:
`file.name.replace(/[^a-zA-Z0-9._-]/g, '_')`. -/
def safeName (s : String) : String :=
  String.mk (s.data.map
    (fun c => if c.isAlphanum || c == '.' || c == '_' || c == '-' then c else '_'))

/-- `addAttachment` from db.ts.  The random prefix (`Math.random()`-derived)
and the process-wide storage mode (`getStorageType()`) are parameters.
Filesystem mode writes the bytes under `{uploadsDir}/{entryId}/{filename}` and
stores the path; blob mode stores the bytes in the row.  The function then
re-reads the row by `(entry_id, filename)`; the source casts the result, we
keep the `Option`. -/
def addAttachment (st : St) (entryId : String) (file : FileInput)
    (storageType : StorageType) (randomPre : String) (now : Nat) :
    Option Attachment × St :=
  let filename := randomPre ++ "-" ++ safeName file.name
  match storageType with
  | .filesystem =>
    let entryDir := uploadsDir ++ "/" ++ entryId
    let filePath := entryDir ++ "/" ++ filename
    let fs1 := fsWrite st.fs filePath file.buffer
    let row : AttachmentRow :=
      { id := st.db.nextAttachmentId
        entry_id := entryId
        filename := filename
        original_name := file.name
        mime_type := file.type
        size_bytes := file.size
        storage_type := .filesystem
        blob_data := none
        file_path := some filePath
        created_at := now }
    let db1 := { st.db with
      attachments := st.db.attachments ++ [row]
      nextAttachmentId := st.db.nextAttachmentId + 1 }
    ((db1.attachments.find?
        (fun r => r.entry_id == entryId && r.filename == filename)).map mapAttachment,
     { db := db1, fs := fs1 })
  | .blob =>
    let row : AttachmentRow :=
      { id := st.db.nextAttachmentId
        entry_id := entryId
        filename := filename
        original_name := file.name
        mime_type := file.type
        size_bytes := file.size
        storage_type := .blob
        blob_data := some file.buffer
        file_path := none
        created_at := now }
    let db1 := { st.db with
      attachments := st.db.attachments ++ [row]
      nextAttachmentId := st.db.nextAttachmentId + 1 }
    ((db1.attachments.find?
        (fun r => r.entry_id == entryId && r.filename == filename)).map mapAttachment,
     { db := db1, fs := st.fs })

/-- `getAttachment` from db.ts: row lookup by id; blob rows with a non-null
`blob_data` (any Buffer, even empty, is truthy) serve the stored bytes;
otherwise a truthy `file_path` whose file exists serves the disk bytes; every
other case — including a dangling filesystem reference — is `null`. -/
def getAttachment (st : St) (i : Nat) : Option (Attachment × List Nat) :=
  match st.db.attachments.find? (fun r => r.id == i) with
  | none => none
  | some row =>
    let att := mapAttachment row
    if row.storage_type == StorageType.blob && row.blob_data.isSome then
      some (att, row.blob_data.getD [])
    else
      match row.file_path with
      | some p =>
        if strTruthy p then
          match fsRead st.fs p with
          | some d => some (att, d)
          | none => none
        else none
      | none => none

/-- `deleteAttachment` from db.ts: unlink the file of a filesystem-backed row
(truthy path only, missing file swallowed), then DELETE the row. -/
def deleteAttachment (st : St) (i : Nat) : Bool × St :=
  match st.db.attachments.find? (fun r => r.id == i) with
  | none => (false, st)
  | some row =>
    let fs1 :=
      if row.storage_type == StorageType.filesystem then
        match row.file_path with
        | some p => if strTruthy p then fsUnlink st.fs p else st.fs
        | none => st.fs
      else st.fs
    let changes := (st.db.attachments.filter (fun r => r.id == i)).length
    let db1 := { st.db with
      attachments := st.db.attachments.filter (fun r => r.id != i) }
    (decide (0 < changes), { db := db1, fs := fs1 })

-- --- Count ---

/-- Result shape of `getOpenCount` (`CountResponse` in types.ts). -/
structure CountResponse where
  openCount : Nat
  totalCount : Nat
deriving DecidableEq, Repr

/-- `getOpenCount` from db.ts: per-page counts when the argument is truthy
(`if (pagePath)`), global counts otherwise. -/
def getOpenCount (db : Db) (pagePath : Option String) : CountResponse :=
  match pagePath with
  | some p =>
    if strTruthy p then
      { openCount :=
          (db.entries.filter (fun e => e.is_complete == 0 && e.page_path == p)).length
        totalCount := (db.entries.filter (fun e => e.page_path == p)).length }
    else
      { openCount := (db.entries.filter (fun e => e.is_complete == 0)).length
        totalCount := db.entries.length }
  | none =>
    { openCount := (db.entries.filter (fun e => e.is_complete == 0)).length
      totalCount := db.entries.length }

-- --- Operation alphabet (for store-wide invariants) ---

/-- The mutating operations of the store.  The read-only operations
(`listEntries`, `getEntry`, `getAttachment`, `getOpenCount`,
`exportAllEntries`) take no state forward and so cannot change it. -/
inductive Op where
  | create (dto : CreateEntryDto) (now : Nat)
  | update (entryId : String) (dto : UpdateEntryDto) (now : Nat)
  | remove (entryId : String)
  | attach (entryId : String) (file : FileInput) (mode : StorageType)
      (randomPre : String) (now : Nat)
  | detach (i : Nat)
deriving Repr

/-- Run one store operation on the world state. -/
def applyOp (st : St) : Op → St
  | .create dto now => { st with db := (createEntry st.db dto now).2 }
  | .update entryId dto now => { st with db := (updateEntry st.db entryId dto now).2 }
  | .remove entryId => (deleteEntry st entryId).2
  | .attach entryId file mode randomPre now =>
      (addAttachment st entryId file mode randomPre now).2
  | .detach i => (deleteAttachment st i).2

/-- Run a sequence of store operations. -/
def applyOps (st : St) (ops : List Op) : St :=
  ops.foldl applyOp st

end DevLog

namespace DevLog

-- --- Concrete fixtures used by counterexamples and witnesses ---

/-- An incomplete bug report on page "/a". -/
def exRow1 : EntryRow :=
  { id := 1, entry_id := "BUG-001", type := .bug_report, title := "b"
    description := "", priority := none, is_complete := 0
    page_url := "http://x/a", page_path := "/a", user_agent := none
    created_at := 1, updated_at := 1 }

/-- An incomplete note on page "/a". -/
def exRow2 : EntryRow :=
  { id := 2, entry_id := "NOTE-001", type := .note, title := "n"
    description := "", priority := none, is_complete := 0
    page_url := "http://x/a", page_path := "/a", user_agent := none
    created_at := 2, updated_at := 2 }

/-- A database holding the two fixture entries. -/
def exDb : Db :=
  { entries := [exRow1, exRow2], attachments := []
    counters := { change_request := 1, bug_report := 2, note := 2 }
    nextEntryRowId := 3, nextAttachmentId := 1 }

/-- List filter: page "/a", notes only, open entries only. -/
def exOpts : ListOptions :=
  { pagePath := some "/a", type := some .note, includeComplete := false }

/-- A freshly initialized database (schema applied, counters seeded at 1). -/
def emptyDb : Db :=
  { entries := [], attachments := []
    counters := { change_request := 1, bug_report := 1, note := 1 }
    nextEntryRowId := 1, nextAttachmentId := 1 }

/-- A creation payload that supplies every optional field, with `submittedBy`
present and an empty-string `userAgent`. -/
def cexDto : CreateEntryDto :=
  { type := .bug_report, title := "Null pointer on save", description := none
    priority := none, submittedBy := some "alice", pageUrl := "http://x/a"
    pagePath := "/a", userAgent := some "" }

/-- A partial update payload: new title, mark complete, leave the rest. -/
def wDto : UpdateEntryDto :=
  { title := some "t2", description := none, priority := none
    isComplete := some true }

/-- A filesystem-backed attachment row owned by the fixture bug report. -/
def exAttRow : AttachmentRow :=
  { id := 1, entry_id := "BUG-001", filename := "abc123-shot.png"
    original_name := "shot.png", mime_type := "image/png", size_bytes := 3
    storage_type := .filesystem, blob_data := none
    file_path := some (uploadsDir ++ "/BUG-001/abc123-shot.png")
    created_at := 3 }

/-- World state: the fixture database plus the attachment's file on disk. -/
def exSt : St :=
  { db := { exDb with attachments := [exAttRow], nextAttachmentId := 2 }
    fs := [(uploadsDir ++ "/BUG-001/abc123-shot.png", [1, 2, 3])] }

/-- World state with a dangling filesystem attachment: the row exists but its
file was removed out-of-band. -/
def danglingSt : St :=
  { db := { exDb with attachments := [exAttRow], nextAttachmentId := 2 }
    fs := [] }

/-- World state over the freshly initialized database and an empty disk. -/
def emptySt : St :=
  { db := emptyDb, fs := [] }

/-- The file payload used by attachment witnesses. -/
def exFile : FileInput :=
  { name := "shot 1.png", type := "image/png", size := 3, buffer := [7, 8, 9] }

-- --- C1 ---

/-- C1 (counterexample): on a page with an open bug report and an open note,
listing with a `type = note` filter returns `openCount = 2`, while only 1
entry is incomplete and matches both the page path and the type filter — the
open-count query ignores the type filter, so the claim as stated is false. -/
theorem listEntries_openCount_type_cex :
    (listEntries exDb exOpts).openCount = 2
      ∧ (exDb.entries.filter (fun e =>
            e.is_complete == 0 && e.page_path == "/a"
              && e.type == EntryType.note)).length = 1 := by
  exact ⟨rfl, rfl⟩

/-- C1 (amended): the `openCount` returned by `listEntries` equals the number
of incomplete entries matching the supplied `pagePath` filter alone — the
`type` filter is not applied to it — and it is independent of both the
`includeComplete` flag and the `type` filter. -/
theorem listEntries_openCount_spec (db : Db) (pp : Option String)
    (t t2 : Option EntryType) (ic ic2 : Bool) :
    (listEntries db { pagePath := pp, type := t, includeComplete := ic }).openCount
        = (db.entries.filter (fun e => e.is_complete == 0 && pagePathCond pp e)).length
      ∧ (listEntries db { pagePath := pp, type := t, includeComplete := ic }).openCount
        = (listEntries db { pagePath := pp, type := t2, includeComplete := ic2 }).openCount := by
  exact ⟨rfl, rfl⟩

-- --- Decimal parsing of the formatted ids ---

/-- `Nat.digitChar` renders one decimal digit faithfully. -/
theorem digitChar_spec : ∀ m, m < 10 →
    ((Nat.digitChar m).toNat - Char.toNat '0' = m
      ∧ (Nat.digitChar m).isDigit = true) := by
  decide

/-- `Nat.toDigitsCore` writes the decimal digits of `n` in front of `ds`:
folding the decimal-accumulator step over the result equals folding it over
`ds` starting from the accumulator extended by `n`'s digits. -/
theorem toDigitsCore_foldl (fuel : Nat) : ∀ (n : Nat) (ds : List Char) (k : Nat),
    n < fuel →
    ∃ e, 0 < e ∧ n < 10 ^ e ∧
      List.foldl (fun m c => m * 10 + (c.toNat - Char.toNat '0')) k
          (Nat.toDigitsCore 10 fuel n ds)
        = List.foldl (fun m c => m * 10 + (c.toNat - Char.toNat '0'))
            (k * 10 ^ e + n) ds := by
  induction fuel with
  | zero =>
    intro n ds k h
    omega
  | succ fuel ih =>
    intro n ds k h
    simp only [Nat.toDigitsCore]
    by_cases hz : n / 10 = 0
    · rw [if_pos hz]
      refine ⟨1, by omega, by rw [pow_one]; omega, ?_⟩
      rw [List.foldl_cons, (digitChar_spec (n % 10) (by omega)).1]
      have he : k * 10 ^ 1 + n = k * 10 + n % 10 := by
        rw [pow_one]
        omega
      rw [he]
    · rw [if_neg hz]
      have h1 : n / 10 < fuel := by omega
      obtain ⟨e, he0, helt, heq⟩ := ih (n / 10) (Nat.digitChar (n % 10) :: ds) k h1
      have hp : (10 : Nat) ^ (e + 1) = 10 * 10 ^ e := by
        rw [pow_succ]
        ring
      refine ⟨e + 1, by omega, by omega, ?_⟩
      rw [heq, List.foldl_cons, (digitChar_spec (n % 10) (by omega)).1]
      have h2 : k * 10 ^ (e + 1) = k * 10 ^ e * 10 := by
        ring
      rw [h2]
      congr 1
      omega

/-- Every character `Nat.toDigitsCore` emits is a decimal digit. -/
theorem toDigitsCore_isDigit (fuel : Nat) : ∀ (n : Nat) (ds : List Char),
    (∀ c ∈ ds, c.isDigit = true) →
    ∀ c ∈ Nat.toDigitsCore 10 fuel n ds, c.isDigit = true := by
  induction fuel with
  | zero =>
    intro n ds hds
    simpa [Nat.toDigitsCore] using hds
  | succ fuel ih =>
    intro n ds hds
    simp only [Nat.toDigitsCore]
    have hd : ∀ c ∈ Nat.digitChar (n % 10) :: ds, c.isDigit = true := by
      intro c hc
      rcases List.mem_cons.1 hc with rfl | hc2
      · exact (digitChar_spec (n % 10) (by omega)).2
      · exact hds c hc2
    by_cases hz : n / 10 = 0
    · rw [if_pos hz]
      exact hd
    · rw [if_neg hz]
      exact ih (n / 10) _ hd

/-- `Nat.toDigitsCore` never returns the empty list when given fuel or a
non-empty accumulator. -/
theorem toDigitsCore_ne_nil (fuel : Nat) : ∀ (n : Nat) (ds : List Char),
    (0 < fuel ∨ ds ≠ []) → Nat.toDigitsCore 10 fuel n ds ≠ [] := by
  induction fuel with
  | zero =>
    intro n ds h
    rcases h with h | h
    · omega
    · simpa [Nat.toDigitsCore] using h
  | succ fuel ih =>
    intro n ds h
    simp only [Nat.toDigitsCore]
    by_cases hz : n / 10 = 0
    · rw [if_pos hz]
      simp
    · rw [if_neg hz]
      exact ih (n / 10) _ (Or.inr (by simp))

/-- Folding the decimal accumulator over the digits of `toString n` from zero
recovers `n`. -/
theorem foldl_data_toString (n : Nat) :
    List.foldl (fun m c => m * 10 + (c.toNat - Char.toNat '0')) 0
        (toString n).data = n := by
  obtain ⟨e, _, _, heq⟩ := toDigitsCore_foldl (n + 1) n [] 0 (by omega)
  have h0 : (toString n).data = Nat.toDigitsCore 10 (n + 1) n [] := rfl
  rw [h0, heq]
  simp

/-- A non-empty all-digit string is accepted by `String.isNat`. -/
theorem isNat_of_data (s : String) (h1 : s.data ≠ [])
    (h2 : ∀ c ∈ s.data, c.isDigit = true) : s.isNat = true := by
  unfold String.isNat
  rw [Bool.and_eq_true]
  constructor
  · cases hie : s.isEmpty
    · rfl
    · have hd : s.data = [] := by
        rw [(String.isEmpty_iff s).1 hie]
      exact absurd hd h1
  · rw [String.all_eq, List.all_eq_true]
    intro c hc
    exact h2 c hc

/-- `String.toNat?` on a non-empty all-digit string returns the value of the
decimal fold over its characters. -/
theorem toNat?_eq_some (s : String) (n : Nat) (h1 : s.data ≠ [])
    (h2 : ∀ c ∈ s.data, c.isDigit = true)
    (h3 : List.foldl (fun m c => m * 10 + (c.toNat - Char.toNat '0')) 0
        s.data = n) :
    s.toNat? = some n := by
  unfold String.toNat?
  rw [if_pos (isNat_of_data s h1 h2)]
  rw [String.foldl_eq, h3]

/-- Leading zeros do not change the value of the decimal fold from zero. -/
theorem foldl_replicate_zero (z : Nat) (l : List Char) :
    List.foldl (fun m c => m * 10 + (c.toNat - Char.toNat '0')) 0
        (List.replicate z '0' ++ l)
      = List.foldl (fun m c => m * 10 + (c.toNat - Char.toNat '0')) 0 l := by
  induction z with
  | zero => rfl
  | succ z ih =>
    rw [List.replicate_succ, List.cons_append, List.foldl_cons]
    exact ih

/-- Parsing a zero-padded numeral recovers the number: the numeric value of
the suffix `padStart3 n` is exactly `n`. -/
theorem toNat?_padStart3 (n : Nat) : (padStart3 n).toNat? = some n := by
  have hne : (toString n).data ≠ [] :=
    toDigitsCore_ne_nil (n + 1) n [] (Or.inl (by omega))
  have hdig : ∀ c ∈ (toString n).data, c.isDigit = true :=
    toDigitsCore_isDigit (n + 1) n [] (by intro c hc; cases hc)
  show (if (toString n).length < 3 then
      String.mk (List.replicate (3 - (toString n).length) '0') ++ toString n
    else toString n).toNat? = some n
  by_cases h : (toString n).length < 3
  · rw [if_pos h]
    apply toNat?_eq_some
    · rw [String.data_append]
      intro hnil
      rw [List.append_eq_nil] at hnil
      exact hne hnil.2
    · rw [String.data_append]
      intro c hc
      rcases List.mem_append.1 hc with hc1 | hc2
      · rw [List.eq_of_mem_replicate hc1]
        decide
      · exact hdig c hc2
    · rw [String.data_append]
      show List.foldl (fun m c => m * 10 + (c.toNat - Char.toNat '0')) 0
          (List.replicate (3 - (toString n).length) '0' ++ (toString n).data) = n
      rw [foldl_replicate_zero]
      exact foldl_data_toString n
  · rw [if_neg h]
    exact toNat?_eq_some _ _ hne hdig (foldl_data_toString n)

-- --- C2 ---

/-- C2: `getNextEntryId` returns the pre-increment counter value formatted as
the type's prefix, a dash, and the number padded to at least 3 digits (the
plain numeral's width when longer); the counter is incremented by exactly 1,
so the consecutive call formats the successor number — and the two formatted
numeric suffixes parse back to n and n + 1, so they differ by exactly 1. -/
theorem getNextEntryId_spec (db : Db) (t : EntryType) :
    (getNextEntryId t db).1
        = PREFIXES t ++ "-" ++ padStart3 (counterGet db.counters t)
      ∧ counterGet (getNextEntryId t db).2.counters t = counterGet db.counters t + 1
      ∧ (getNextEntryId t (getNextEntryId t db).2).1
        = PREFIXES t ++ "-" ++ padStart3 (counterGet db.counters t + 1)
      ∧ (padStart3 (counterGet db.counters t)).toNat? = some (counterGet db.counters t)
      ∧ (padStart3 (counterGet db.counters t + 1)).toNat?
        = some (counterGet db.counters t + 1)
      ∧ (padStart3 (counterGet db.counters t)).length
        = max 3 (toString (counterGet db.counters t)).length
      ∧ (counterGet db.counters t < 1000
          → (padStart3 (counterGet db.counters t)).length = 3) := by
  have hinc : counterGet (counterInc db.counters t) t = counterGet db.counters t + 1 := by
    cases t <;> rfl
  have hlen : ∀ n : Nat, (padStart3 n).length = max 3 (toString n).length := by
    intro n
    unfold padStart3
    by_cases h : (toString n).length < 3
    · simp [h, Nat.max_eq_left (Nat.le_of_lt h), Nat.sub_add_cancel (Nat.le_of_lt h)]
    · simp [h, Nat.max_eq_right (Nat.le_of_not_lt h)]
  refine ⟨rfl, hinc, ?_, toNat?_padStart3 _, toNat?_padStart3 _, hlen _, ?_⟩
  · show (getNextEntryId t (getNextEntryId t db).2).1
      = PREFIXES t ++ "-" ++ padStart3 (counterGet db.counters t + 1)
    unfold getNextEntryId
    rw [hinc]
  · intro h
    rw [hlen]
    have : (toString (counterGet db.counters t)).length ≤ 3 := by
      have := Nat.repr_length (counterGet db.counters t) 3 (by norm_num) (by omega)
      simpa [toString] using this
    omega

-- --- C10 ---

/-- C10: an empty-string `pagePath` is falsy in JS, so `listEntries` with
`pagePath = ""` behaves exactly like `listEntries` with no page filter, and
`getOpenCount ""` returns the global counts. -/
theorem emptyPagePath_is_unfiltered (db : Db) (t : Option EntryType) (ic : Bool) :
    listEntries db { pagePath := some "", type := t, includeComplete := ic }
        = listEntries db { pagePath := none, type := t, includeComplete := ic }
      ∧ getOpenCount db (some "") = getOpenCount db none := by
  exact ⟨rfl, rfl⟩

end DevLog

namespace DevLog

-- --- Shared helper lemmas ---

/-- `find?` commutes with a map that does not disturb the predicate. -/
theorem find?_map_pres {α : Type} (p : α → Bool) (f : α → α) (l : List α)
    (h : ∀ a, p (f a) = p a) :
    (l.map f).find? p = (l.find? p).map f := by
  induction l with
  | nil => rfl
  | cons a l ih =>
    cases hp : p a with
    | true => simp [List.find?_cons, h a, hp]
    | false => simp [List.find?_cons, h a, hp, ih]

/-- Reading back an entry whose row was just appended to a table that held no
row (and no attachment row) with its `entry_id`. -/
theorem getEntry_append_fresh (db : Db) (row : EntryRow) (newId : String)
    (hrow : row.entry_id = newId)
    (hfresh : ∀ e ∈ db.entries, e.entry_id ≠ newId)
    (hatt : ∀ a ∈ db.attachments, a.entry_id ≠ newId)
    (c : Counters) (n1 n2 : Nat) :
    getEntry
      { entries := db.entries ++ [row], attachments := db.attachments
        counters := c, nextEntryRowId := n1, nextAttachmentId := n2 } newId
      = some (mapEntry row []) := by
  have h1 : db.entries.find? (fun e => e.entry_id == newId) = none :=
    List.find?_eq_none.2 (fun e he => by simpa using hfresh e he)
  have h2 : db.attachments.filter (fun a => a.entry_id == newId) = [] :=
    List.filter_eq_nil_iff.2 (fun a ha => by simpa using hatt a ha)
  unfold getEntry attachmentsOf
  simp only [List.find?_append, h1, Option.none_or, List.find?_cons, hrow]
  simp [h2, sortBy]

/-- The positive case of `updateEntry`: the returned entry is the prior entry
with exactly the supplied fields replaced and `updatedAt` refreshed. -/
theorem updateEntry_found (db : Db) (entryId : String) (dto : UpdateEntryDto)
    (now : Nat) (e : DevLogEntry) (h : getEntry db entryId = some e) :
    (updateEntry db entryId dto now).1 = some { e with
      title := dto.title.getD e.title
      description := dto.description.getD e.description
      priority := match dto.priority with
        | some p => p
        | none => e.priority
      isComplete := dto.isComplete.getD e.isComplete
      updatedAt := now } := by
  have h0 := h
  unfold getEntry at h
  rw [Option.map_eq_some'] at h
  obtain ⟨row, hrow, he⟩ := h
  have hq : (row.entry_id == entryId) = true := by
    have := List.find?_some (p := fun r : EntryRow => r.entry_id == entryId) hrow
    simpa using this
  have hpres : ∀ r : EntryRow,
      ((if r.entry_id == entryId then applyUpdate dto now r else r).entry_id == entryId)
        = (r.entry_id == entryId) := by
    intro r
    by_cases hr : (r.entry_id == entryId) = true
    · rw [if_pos hr, show (applyUpdate dto now r).entry_id = r.entry_id from rfl]
    · rw [if_neg hr]
  unfold updateEntry
  rw [h0]
  show getEntry
      { db with
        entries := db.entries.map fun r =>
          if r.entry_id == entryId then applyUpdate dto now r else r }
      entryId = _
  unfold getEntry
  rw [find?_map_pres _ _ _ hpres, hrow]
  simp only [Option.map_some']
  rw [if_pos hq]
  subst he
  obtain ⟨dt, dd, dp, dic⟩ := dto
  cases dic with
  | none => rfl
  | some b => cases b <;> rfl

end DevLog

namespace DevLog

-- --- C3 ---

/-- C3 (counterexample): the dto supplies `submittedBy = "alice"` and
`userAgent = ""`, yet the record fetched right after creation carries neither
(`submittedBy` is never persisted; an empty-string `userAgent` is coerced to
null by `dto.userAgent || null`), so the record is not equal to the dto in all
supplied fields. -/
theorem createEntry_supplied_fields_cex :
    cexDto.submittedBy = some "alice"
      ∧ cexDto.userAgent = some ""
      ∧ ((createEntry emptyDb cexDto 5).1.map DevLogEntry.submittedBy) = some none
      ∧ ((createEntry emptyDb cexDto 5).1.map DevLogEntry.userAgent) = some none := by
  refine ⟨rfl, rfl, ?_, ?_⟩ <;> rfl

/-- C3 (amended): creating an entry whose generated id is fresh and then
fetching it yields a record equal to the dto in the fields the store persists
(type, title, pageUrl, pagePath, plus description, priority and a non-empty
userAgent when supplied), with `attachments = []`, description defaulting to
the empty string, priority absent when omitted, `submittedBy` always absent,
an empty-string userAgent stored as absent, and `createdAt = updatedAt`. -/
theorem createEntry_getEntry_spec (db : Db) (dto : CreateEntryDto) (now : Nat)
    (hfresh : ∀ e ∈ db.entries, e.entry_id ≠ (getNextEntryId dto.type db).1)
    (hatt : ∀ a ∈ db.attachments, a.entry_id ≠ (getNextEntryId dto.type db).1) :
    (createEntry db dto now).1 = some
        { id := db.nextEntryRowId
          entryId := (getNextEntryId dto.type db).1
          type := dto.type
          title := dto.title
          description := dto.description.getD ""
          priority := dto.priority
          isComplete := false
          submittedBy := none
          pageUrl := dto.pageUrl
          pagePath := dto.pagePath
          userAgent := jsStrOrNull dto.userAgent
          createdAt := now
          updatedAt := now
          attachments := [] }
      ∧ getEntry (createEntry db dto now).2 (getNextEntryId dto.type db).1
        = (createEntry db dto now).1 := by
  constructor
  · exact getEntry_append_fresh db
      { id := db.nextEntryRowId
        entry_id := (getNextEntryId dto.type db).1
        type := dto.type
        title := dto.title
        description := dto.description.getD ""
        priority := dto.priority
        is_complete := 0
        page_url := dto.pageUrl
        page_path := dto.pagePath
        user_agent := jsStrOrNull dto.userAgent
        created_at := now
        updated_at := now }
      ((getNextEntryId dto.type db).1) rfl hfresh hatt _ _ _
  · rfl

/-- C3 witness: creating from the fixture dto on the fresh database and
reading it back. -/
theorem createEntry_getEntry_witness :
    (createEntry emptyDb cexDto 5).1 = some
        { id := 1
          entryId := "BUG-001"
          type := .bug_report
          title := "Null pointer on save"
          description := ""
          priority := none
          isComplete := false
          submittedBy := none
          pageUrl := "http://x/a"
          pagePath := "/a"
          userAgent := none
          createdAt := 5
          updatedAt := 5
          attachments := [] } := by
  have h := (createEntry_getEntry_spec emptyDb cexDto 5
    (by intro e he; simp [emptyDb] at he)
    (by intro a ha; simp [emptyDb] at ha)).1
  exact h

-- --- C4 ---

/-- C4: `updateEntry` applies exactly the supplied fields of the partial
payload (title, description, priority, isComplete) and refreshes `updatedAt`;
every other field of the entry — entryId, type, pageUrl, pagePath, userAgent,
createdAt, and the attachments — retains its prior value, and a non-existent
entryId yields the not-found signal. -/
theorem updateEntry_frame (db : Db) (entryId : String) (dto : UpdateEntryDto)
    (now : Nat) :
    (getEntry db entryId = none → (updateEntry db entryId dto now).1 = none)
      ∧ (∀ e, getEntry db entryId = some e →
          (updateEntry db entryId dto now).1 = some { e with
            title := dto.title.getD e.title
            description := dto.description.getD e.description
            priority := match dto.priority with
              | some p => p
              | none => e.priority
            isComplete := dto.isComplete.getD e.isComplete
            updatedAt := now }) := by
  constructor
  · intro h
    unfold updateEntry
    rw [h]
  · intro e h
    exact updateEntry_found db entryId dto now e h

/-- C4 witness: the missing id returns the not-found signal; the fixture
update changes title and completion only. -/
theorem updateEntry_frame_witness :
    (updateEntry exDb "NOPE" wDto 7).1 = none
      ∧ (updateEntry exDb "BUG-001" wDto 7).1 = some
          { mapEntry exRow1 [] with
            title := "t2"
            isComplete := true
            updatedAt := 7 } := by
  constructor
  · exact (updateEntry_frame exDb "NOPE" wDto 7).1 (by decide)
  · exact (updateEntry_frame exDb "BUG-001" wDto 7).2 (mapEntry exRow1 []) (by decide)

-- --- C5 ---

/-- C5: a successful `updateEntry` sets the entry's `updatedAt` to the current
clock, so under a strictly advancing clock the value strictly increases across
successive updates. -/
theorem updateEntry_updatedAt_increases (db : Db) (entryId : String)
    (dto : UpdateEntryDto) (now : Nat) (e : DevLogEntry)
    (h : getEntry db entryId = some e) (hclock : e.updatedAt < now) :
    ∃ e2, (updateEntry db entryId dto now).1 = some e2
      ∧ e2.updatedAt = now ∧ e.updatedAt < e2.updatedAt := by
  exact ⟨_, updateEntry_found db entryId dto now e h, rfl, hclock⟩

/-- C5 witness: updating the fixture bug report at a later clock value. -/
theorem updateEntry_updatedAt_witness :
    ∃ e2, (updateEntry exDb "BUG-001" wDto 7).1 = some e2
      ∧ e2.updatedAt = 7 ∧ (mapEntry exRow1 []).updatedAt < e2.updatedAt := by
  exact updateEntry_updatedAt_increases exDb "BUG-001" wDto 7 (mapEntry exRow1 [])
    (by decide) (by decide)

end DevLog

namespace DevLog

/-- C2 witness: allocating a note id on the fresh database yields NOTE-001
and a 3-character padded number. -/
theorem getNextEntryId_spec_witness :
    (getNextEntryId EntryType.note emptyDb).1 = "NOTE-001"
      ∧ (padStart3 (counterGet emptyDb.counters EntryType.note)).length = 3 := by
  have h := getNextEntryId_spec emptyDb EntryType.note
  refine ⟨?_, h.2.2.2.2.2.2 (by decide)⟩
  rw [h.1]
  rfl

end DevLog

namespace DevLog

-- --- Helper lemmas for filesystem and lookup reasoning ---

/-- A path unreadable before a filter stays unreadable after it. -/
theorem fsRead_filter_none (fs : Fs) (pr : String × List Nat → Bool) (q : String)
    (h : fsRead fs q = none) : fsRead (fs.filter pr) q = none := by
  unfold fsRead at h ⊢
  rw [Option.map_eq_none'] at h ⊢
  rw [List.find?_eq_none] at h ⊢
  intro x hx
  exact h x (List.mem_filter.1 hx).1

/-- Unlinking a path makes it unreadable. -/
theorem fsRead_fsUnlink_self (fs : Fs) (p : String) :
    fsRead (fsUnlink fs p) p = none := by
  unfold fsRead fsUnlink
  rw [Option.map_eq_none', List.find?_eq_none]
  intro x hx
  have hne := (List.mem_filter.1 hx).2
  simp only [bne_iff_ne, ne_eq] at hne
  simpa using hne

/-- Reading back a freshly written file returns the written bytes. -/
theorem fsRead_fsWrite_self (fs : Fs) (p : String) (c : List Nat) :
    fsRead (fsWrite fs p c) p = some c := by
  unfold fsRead fsWrite
  simp [List.find?_cons]

/-- The unlink loop of `deleteEntry` makes every truthy attachment path of the
processed rows unreadable, and preserves paths already unreadable. -/
theorem foldl_unlink_none (l : List AttachmentRow) (fs : Fs) (q : String)
    (h : fsRead fs q = none
      ∨ ∃ a ∈ l, a.file_path = some q ∧ strTruthy q = true) :
    fsRead (l.foldl (fun fs a =>
      match a.file_path with
      | some p => if strTruthy p then fsUnlink fs p else fs
      | none => fs) fs) q = none := by
  induction l generalizing fs with
  | nil =>
    rcases h with h | ⟨a, ha, _⟩
    · exact h
    · cases ha
  | cons a l ih =>
    simp only [List.foldl_cons]
    rcases h with h | ⟨b, hb, hbp, hbt⟩
    · apply ih
      left
      cases hfp : a.file_path with
      | none => exact h
      | some p =>
        show fsRead (if strTruthy p = true then fsUnlink fs p else fs) q = none
        by_cases ht : strTruthy p = true
        · rw [if_pos ht]
          exact fsRead_filter_none fs _ q h
        · rw [if_neg ht]
          exact h
    · rcases List.mem_cons.1 hb with rfl | hb2
      · apply ih
        left
        rw [hbp]
        show fsRead (if strTruthy q = true then fsUnlink fs q else fs) q = none
        rw [if_pos hbt]
        exact fsRead_fsUnlink_self fs q
      · apply ih
        right
        exact ⟨b, hb2, hbp, hbt⟩

/-- `find?` over a table with one fresh row appended finds that row when
nothing before it matches. -/
theorem find?_append_fresh {α : Type} (p : α → Bool) (l : List α) (x : α)
    (hl : ∀ a ∈ l, ¬ p a = true) (hx : p x = true) :
    (l ++ [x]).find? p = some x := by
  rw [List.find?_append, List.find?_eq_none.2 hl]
  simp [List.find?_cons, hx]

/-- A string with a truthy (non-empty) left part stays truthy after append. -/
theorem strTruthy_append_left (s t : String) (h : strTruthy s = true) :
    strTruthy (s ++ t) = true := by
  unfold strTruthy at h ⊢
  rw [String.data_append]
  cases hd : s.data with
  | nil => rw [hd] at h; simp at h
  | cons c l => rfl

end DevLog

namespace DevLog

/-- `getEntry` reports not-found when no entry row matches. -/
theorem getEntry_of_none (db : Db) (entryId : String)
    (h : db.entries.find? (fun e => e.entry_id == entryId) = none) :
    getEntry db entryId = none := by
  unfold getEntry
  rw [h]
  rfl

/-- `getAttachment` reports not-found when no attachment row matches. -/
theorem getAttachment_of_none (st : St) (i : Nat)
    (h : st.db.attachments.find? (fun r => r.id == i) = none) :
    getAttachment st i = none := by
  unfold getAttachment
  rw [h]

-- --- C6 ---

/-- C6: `deleteEntry` unlinks every truthy filesystem attachment path of the
entry, empties the entry's upload directory, removes the entry row and (by
cascade) all its attachment rows, and returns true exactly when an entry row
existed; afterwards `getEntry` and `getAttachment` on the former ids report
not-found (the latter under unique attachment row ids, as AUTOINCREMENT
guarantees). -/
theorem deleteEntry_spec (st : St) (entryId : String)
    (hids : (st.db.attachments.map (fun a => a.id)).Nodup) :
    ((deleteEntry st entryId).1 = true ↔ ∃ e ∈ st.db.entries, e.entry_id = entryId)
      ∧ (∀ a ∈ st.db.attachments, a.entry_id = entryId
          → a.storage_type = StorageType.filesystem
          → ∀ p, a.file_path = some p → strTruthy p = true
          → fsRead (deleteEntry st entryId).2.fs p = none)
      ∧ (∀ q : String, q.startsWith (uploadsDir ++ "/" ++ entryId ++ "/") = true
          → fsRead (deleteEntry st entryId).2.fs q = none)
      ∧ getEntry (deleteEntry st entryId).2.db entryId = none
      ∧ (∀ a ∈ st.db.attachments, a.entry_id = entryId
          → getAttachment (deleteEntry st entryId).2 a.id = none)
      ∧ (∀ e ∈ (deleteEntry st entryId).2.db.entries, e.entry_id ≠ entryId)
      ∧ (∀ a ∈ (deleteEntry st entryId).2.db.attachments, a.entry_id ≠ entryId) := by
  refine ⟨?_, ?_, ?_, ?_, ?_, ?_, ?_⟩
  · show decide (0 < (st.db.entries.filter fun e => e.entry_id == entryId).length)
        = true ↔ _
    rw [decide_eq_true_eq, List.length_pos_iff_exists_mem]
    constructor
    · rintro ⟨e, he⟩
      have hm := List.mem_filter.1 he
      exact ⟨e, hm.1, by simpa using hm.2⟩
    · rintro ⟨e, he, hq⟩
      exact ⟨e, List.mem_filter.2 ⟨he, by simpa using hq⟩⟩
  · intro a ha hae hast p hp ht
    show fsRead (fsRmRecursive
        (List.foldl (fun fs a =>
          match a.file_path with
          | some p => if strTruthy p then fsUnlink fs p else fs
          | none => fs) st.fs
          (st.db.attachments.filter fun a =>
            a.entry_id == entryId && a.storage_type == StorageType.filesystem))
        (uploadsDir ++ "/" ++ entryId)) p = none
    apply fsRead_filter_none
    apply foldl_unlink_none
    right
    refine ⟨a, List.mem_filter.2 ⟨ha, by simp [hae, hast]⟩, hp, ht⟩
  · intro q hq
    show fsRead (fsRmRecursive
        (List.foldl (fun fs a =>
          match a.file_path with
          | some p => if strTruthy p then fsUnlink fs p else fs
          | none => fs) st.fs
          (st.db.attachments.filter fun a =>
            a.entry_id == entryId && a.storage_type == StorageType.filesystem))
        (uploadsDir ++ "/" ++ entryId)) q = none
    unfold fsRmRecursive fsRead
    rw [Option.map_eq_none', List.find?_eq_none]
    intro x hx
    have hpr := (List.mem_filter.1 hx).2
    intro hxq
    have hxq2 : x.1 = q := by simpa using hxq
    rw [hxq2] at hpr
    rw [Bool.not_eq_true', Bool.or_eq_false_iff] at hpr
    rw [hpr.2] at hq
    cases hq
  · apply getEntry_of_none
    show (st.db.entries.filter fun e => e.entry_id != entryId).find?
        (fun e => e.entry_id == entryId) = none
    rw [List.find?_eq_none]
    intro e he
    have := (List.mem_filter.1 he).2
    simpa using this
  · intro a ha hae
    apply getAttachment_of_none
    show (st.db.attachments.filter fun r => r.entry_id != entryId).find?
        (fun r => r.id == a.id) = none
    rw [List.find?_eq_none]
    intro b hb
    have hbm := List.mem_filter.1 hb
    intro hbeq
    have hbid : b.id = a.id := by simpa using hbeq
    have hba : b = a :=
      List.inj_on_of_nodup_map hids hbm.1 ha hbid
    rw [hba] at hbm
    rw [hae] at hbm
    simpa using hbm.2
  · intro e he
    have := (List.mem_filter.1 he).2
    simpa using this
  · intro a ha
    have := (List.mem_filter.1 ha).2
    simpa using this

/-- C6 witness: deleting the fixture bug report with one on-disk attachment. -/
theorem deleteEntry_spec_witness :
    (deleteEntry exSt "BUG-001").1 = true
      ∧ getEntry (deleteEntry exSt "BUG-001").2.db "BUG-001" = none
      ∧ getAttachment (deleteEntry exSt "BUG-001").2 1 = none
      ∧ fsRead (deleteEntry exSt "BUG-001").2.fs
          (uploadsDir ++ "/BUG-001/abc123-shot.png") = none := by
  have h := deleteEntry_spec exSt "BUG-001" (by decide)
  refine ⟨h.1.2 ⟨exRow1, by decide, rfl⟩, h.2.2.2.1,
    h.2.2.2.2.1 exAttRow (by decide) rfl, ?_⟩
  exact h.2.1 exAttRow (by decide) rfl rfl (uploadsDir ++ "/BUG-001/abc123-shot.png")
    rfl (by decide)

end DevLog

namespace DevLog

/-- `getAttachment` on a blob row with stored bytes serves those bytes. -/
theorem getAttachment_found_blob (st : St) (i : Nat) (row : AttachmentRow)
    (b : List Nat)
    (h : st.db.attachments.find? (fun r => r.id == i) = some row)
    (hst : row.storage_type = StorageType.blob) (hb : row.blob_data = some b) :
    getAttachment st i = some (mapAttachment row, b) := by
  unfold getAttachment
  rw [h]
  simp [hst, hb]

/-- `getAttachment` on a filesystem row whose truthy path exists on disk
serves the disk bytes. -/
theorem getAttachment_found_fs (st : St) (i : Nat) (row : AttachmentRow)
    (p : String) (d : List Nat)
    (h : st.db.attachments.find? (fun r => r.id == i) = some row)
    (hst : row.storage_type = StorageType.filesystem)
    (hp : row.file_path = some p) (ht : strTruthy p = true)
    (hread : fsRead st.fs p = some d) :
    getAttachment st i = some (mapAttachment row, d) := by
  unfold getAttachment
  rw [h]
  simp [hst, hp, ht, hread, show (StorageType.filesystem == StorageType.blob) = false from rfl]

/-- `getAttachment` on a filesystem row whose file is gone reports not-found
rather than failing. -/
theorem getAttachment_dangling (st : St) (i : Nat) (row : AttachmentRow)
    (p : String)
    (h : st.db.attachments.find? (fun r => r.id == i) = some row)
    (hst : row.storage_type = StorageType.filesystem)
    (hp : row.file_path = some p)
    (hread : fsRead st.fs p = none) :
    getAttachment st i = none := by
  unfold getAttachment
  rw [h]
  simp [hst, hp, hread, show (StorageType.filesystem == StorageType.blob) = false from rfl]

end DevLog

namespace DevLog

-- --- C7 ---

/-- C7: `addAttachment` followed by `getAttachment` on the stored row's id
returns bytes identical to the input buffer, in blob mode and in filesystem
mode alike (given a fresh row id and a non-colliding generated filename, as
AUTOINCREMENT and the random prefix provide). -/
theorem addAttachment_roundtrip (st : St) (entryId : String) (file : FileInput)
    (mode : StorageType) (randomPre : String) (now : Nat)
    (hid : ∀ a ∈ st.db.attachments, a.id ≠ st.db.nextAttachmentId)
    (hname : ∀ a ∈ st.db.attachments,
      ¬(a.entry_id = entryId ∧ a.filename = randomPre ++ "-" ++ safeName file.name)) :
    ∃ att, (addAttachment st entryId file mode randomPre now).1 = some att
      ∧ att.id = st.db.nextAttachmentId
      ∧ (getAttachment (addAttachment st entryId file mode randomPre now).2 att.id).map
          (fun r => r.2) = some file.buffer := by
  have hfind : ∀ row : AttachmentRow, row.entry_id = entryId
      → row.filename = randomPre ++ "-" ++ safeName file.name
      → (st.db.attachments ++ [row]).find?
          (fun r => r.entry_id == entryId
            && r.filename == randomPre ++ "-" ++ safeName file.name) = some row := by
    intro row h1 h2
    apply find?_append_fresh
    · intro a ha hc
      rw [Bool.and_eq_true, beq_iff_eq, beq_iff_eq] at hc
      exact hname a ha hc
    · rw [Bool.and_eq_true, beq_iff_eq, beq_iff_eq]
      exact ⟨h1, h2⟩
  have hfind2 : ∀ row : AttachmentRow, row.id = st.db.nextAttachmentId
      → (st.db.attachments ++ [row]).find?
          (fun r => r.id == st.db.nextAttachmentId) = some row := by
    intro row h1
    apply find?_append_fresh
    · intro a ha hc
      exact hid a ha (by simpa using hc)
    · simpa using h1
  cases mode with
  | blob =>
    have e1 : (addAttachment st entryId file StorageType.blob randomPre now).1
        = some (mapAttachment
          { id := st.db.nextAttachmentId
            entry_id := entryId
            filename := randomPre ++ "-" ++ safeName file.name
            original_name := file.name
            mime_type := file.type
            size_bytes := file.size
            storage_type := StorageType.blob
            blob_data := some file.buffer
            file_path := none
            created_at := now }) :=
      congrArg (Option.map mapAttachment) (hfind _ rfl rfl)
    refine ⟨_, e1, rfl, ?_⟩
    have e2 : getAttachment
        (addAttachment st entryId file StorageType.blob randomPre now).2
        st.db.nextAttachmentId
        = some (mapAttachment
          { id := st.db.nextAttachmentId
            entry_id := entryId
            filename := randomPre ++ "-" ++ safeName file.name
            original_name := file.name
            mime_type := file.type
            size_bytes := file.size
            storage_type := StorageType.blob
            blob_data := some file.buffer
            file_path := none
            created_at := now }, file.buffer) :=
      getAttachment_found_blob _ _ _ _ (hfind2 _ rfl) rfl rfl
    rw [show (mapAttachment
          { id := st.db.nextAttachmentId
            entry_id := entryId
            filename := randomPre ++ "-" ++ safeName file.name
            original_name := file.name
            mime_type := file.type
            size_bytes := file.size
            storage_type := StorageType.blob
            blob_data := some file.buffer
            file_path := none
            created_at := now }).id = st.db.nextAttachmentId from rfl]
    rw [e2]
    rfl
  | filesystem =>
    have htr : strTruthy (uploadsDir ++ "/" ++ entryId ++ "/"
        ++ (randomPre ++ "-" ++ safeName file.name)) = true := by
      apply strTruthy_append_left
      apply strTruthy_append_left
      apply strTruthy_append_left
      decide
    have e1 : (addAttachment st entryId file StorageType.filesystem randomPre now).1
        = some (mapAttachment
          { id := st.db.nextAttachmentId
            entry_id := entryId
            filename := randomPre ++ "-" ++ safeName file.name
            original_name := file.name
            mime_type := file.type
            size_bytes := file.size
            storage_type := StorageType.filesystem
            blob_data := none
            file_path := some (uploadsDir ++ "/" ++ entryId ++ "/"
              ++ (randomPre ++ "-" ++ safeName file.name))
            created_at := now }) :=
      congrArg (Option.map mapAttachment) (hfind _ rfl rfl)
    refine ⟨_, e1, rfl, ?_⟩
    have eread : fsRead
        (addAttachment st entryId file StorageType.filesystem randomPre now).2.fs
        (uploadsDir ++ "/" ++ entryId ++ "/" ++ (randomPre ++ "-" ++ safeName file.name))
        = some file.buffer :=
      fsRead_fsWrite_self st.fs _ file.buffer
    have e2 : getAttachment
        (addAttachment st entryId file StorageType.filesystem randomPre now).2
        st.db.nextAttachmentId
        = some (mapAttachment
          { id := st.db.nextAttachmentId
            entry_id := entryId
            filename := randomPre ++ "-" ++ safeName file.name
            original_name := file.name
            mime_type := file.type
            size_bytes := file.size
            storage_type := StorageType.filesystem
            blob_data := none
            file_path := some (uploadsDir ++ "/" ++ entryId ++ "/"
              ++ (randomPre ++ "-" ++ safeName file.name))
            created_at := now }, file.buffer) :=
      getAttachment_found_fs _ _ _ _ _ (hfind2 _ rfl) rfl rfl htr eread
    rw [show (mapAttachment
          { id := st.db.nextAttachmentId
            entry_id := entryId
            filename := randomPre ++ "-" ++ safeName file.name
            original_name := file.name
            mime_type := file.type
            size_bytes := file.size
            storage_type := StorageType.filesystem
            blob_data := none
            file_path := some (uploadsDir ++ "/" ++ entryId ++ "/"
              ++ (randomPre ++ "-" ++ safeName file.name))
            created_at := now }).id = st.db.nextAttachmentId from rfl]
    rw [e2]
    rfl

/-- C7 witness: one round trip per storage mode on the fixture state. -/
theorem addAttachment_roundtrip_witness :
    (∃ att, (addAttachment exSt "NOTE-001" exFile StorageType.blob "xyz789" 4).1 = some att
      ∧ att.id = exSt.db.nextAttachmentId
      ∧ (getAttachment (addAttachment exSt "NOTE-001" exFile StorageType.blob "xyz789" 4).2
          att.id).map (fun r => r.2) = some exFile.buffer)
    ∧ (∃ att, (addAttachment exSt "NOTE-001" exFile StorageType.filesystem "xyz789" 4).1 = some att
      ∧ att.id = exSt.db.nextAttachmentId
      ∧ (getAttachment (addAttachment exSt "NOTE-001" exFile StorageType.filesystem "xyz789" 4).2
          att.id).map (fun r => r.2) = some exFile.buffer) := by
  constructor
  · exact addAttachment_roundtrip exSt "NOTE-001" exFile StorageType.blob "xyz789" 4
      (by decide) (by decide)
  · exact addAttachment_roundtrip exSt "NOTE-001" exFile StorageType.filesystem "xyz789" 4
      (by decide) (by decide)

end DevLog

namespace DevLog

-- --- C8 ---

/-- C8: over well-formed rows (blob rows carry bytes; filesystem rows carry a
truthy path — exactly what `addAttachment` writes), `getAttachment` returns
the not-found signal exactly when the row is missing or a filesystem row's
file no longer exists on disk; otherwise it returns the row's metadata and
the bytes from the stored blob or from the disk. -/
theorem getAttachment_spec (st : St) (i : Nat)
    (hwf : ∀ a ∈ st.db.attachments,
      (a.storage_type = StorageType.blob → a.blob_data.isSome = true)
        ∧ (a.storage_type = StorageType.filesystem
            → ∃ p, a.file_path = some p ∧ strTruthy p = true)) :
    (getAttachment st i = none ↔
        (st.db.attachments.find? (fun r => r.id == i) = none
          ∨ ∃ a, st.db.attachments.find? (fun r => r.id == i) = some a
              ∧ a.storage_type = StorageType.filesystem
              ∧ ∀ p, a.file_path = some p → fsRead st.fs p = none))
      ∧ (∀ a, st.db.attachments.find? (fun r => r.id == i) = some a →
          ∀ r, getAttachment st i = some r →
            r.1 = mapAttachment a
              ∧ (a.blob_data = some r.2
                  ∨ ∃ p, a.file_path = some p ∧ fsRead st.fs p = some r.2)) := by
  cases hfind : st.db.attachments.find? (fun r => r.id == i) with
  | none =>
    rw [getAttachment_of_none st i hfind]
    simp
  | some a =>
    have hmem := List.mem_of_find?_eq_some hfind
    have hw := hwf a hmem
    cases hstc : a.storage_type with
    | blob =>
      obtain ⟨b, hb⟩ := Option.isSome_iff_exists.1 (hw.1 hstc)
      rw [getAttachment_found_blob st i a b hfind hstc hb]
      constructor
      · constructor
        · intro h
          simp at h
        · rintro (h | ⟨a2, ha2, hst2, _⟩)
          · simp at h
          · injection ha2 with he
            subst he
            rw [hstc] at hst2
            cases hst2
      · intro a2 ha2 r hr
        injection ha2 with he
        subst he
        injection hr with hre
        subst hre
        exact ⟨rfl, Or.inl hb⟩
    | filesystem =>
      obtain ⟨p, hp, htp⟩ := hw.2 hstc
      cases hread : fsRead st.fs p with
      | none =>
        rw [getAttachment_dangling st i a p hfind hstc hp hread]
        constructor
        · constructor
          · intro _
            right
            refine ⟨a, rfl, hstc, ?_⟩
            intro p2 hp2
            rw [hp] at hp2
            injection hp2 with hpe
            rw [← hpe]
            exact hread
          · intro _
            rfl
        · intro a2 ha2 r hr
          cases hr
      | some d =>
        rw [getAttachment_found_fs st i a p d hfind hstc hp htp hread]
        constructor
        · constructor
          · intro h
            simp at h
          · rintro (h | ⟨a2, ha2, hst2, hall⟩)
            · simp at h
            · injection ha2 with he
              subst he
              have hcontra := hall p hp
              rw [hread] at hcontra
              cases hcontra
        · intro a2 ha2 r hr
          injection ha2 with he
          subst he
          injection hr with hre
          subst hre
          exact ⟨rfl, Or.inr ⟨p, hp, hread⟩⟩

/-- C8 witness: a dangling filesystem attachment (row present, file removed
out-of-band) is reported as not-found. -/
theorem getAttachment_spec_witness :
    getAttachment danglingSt 1 = none := by
  have hwf : ∀ a ∈ danglingSt.db.attachments,
      (a.storage_type = StorageType.blob → a.blob_data.isSome = true)
        ∧ (a.storage_type = StorageType.filesystem
            → ∃ p, a.file_path = some p ∧ strTruthy p = true) := by
    intro a ha
    rw [show danglingSt.db.attachments = [exAttRow] from rfl] at ha
    obtain rfl := List.mem_singleton.1 ha
    constructor
    · intro h
      exact absurd h (by decide)
    · intro _
      exact ⟨uploadsDir ++ "/BUG-001/abc123-shot.png", rfl, by decide⟩
  refine (getAttachment_spec danglingSt 1 hwf).1.mpr (Or.inr ⟨exAttRow, by decide, rfl, ?_⟩)
  intro p hp
  have hpe : p = uploadsDir ++ "/BUG-001/abc123-shot.png" := by
    have := hp.symm.trans (show exAttRow.file_path
      = some (uploadsDir ++ "/BUG-001/abc123-shot.png") from rfl)
    injection this
  rw [hpe]
  rfl

end DevLog

namespace DevLog

-- --- C9 ---

/-- Incrementing one per-type counter never decreases any counter. -/
theorem counterGet_le_inc (c : Counters) (u t : EntryType) :
    counterGet c t ≤ counterGet (counterInc c u) t := by
  cases u <;> cases t
    <;> first
      | exact Nat.le_succ _
      | exact Nat.le_refl _

/-- No single store operation decreases a per-type counter. -/
theorem counters_le_applyOp (st : St) (op : Op) (t : EntryType) :
    counterGet st.db.counters t ≤ counterGet (applyOp st op).db.counters t := by
  cases op with
  | create dto now =>
    exact counterGet_le_inc st.db.counters dto.type t
  | update entryId dto now =>
    show counterGet st.db.counters t
        ≤ counterGet (updateEntry st.db entryId dto now).2.counters t
    unfold updateEntry
    cases getEntry st.db entryId <;> exact Nat.le_refl _
  | remove entryId =>
    exact Nat.le_refl _
  | attach entryId file mode randomPre now =>
    cases mode <;> exact Nat.le_refl _
  | detach i =>
    show counterGet st.db.counters t
        ≤ counterGet (deleteAttachment st i).2.db.counters t
    unfold deleteAttachment
    cases st.db.attachments.find? (fun r => r.id == i) <;> exact Nat.le_refl _

/-- No sequence of store operations decreases a per-type counter. -/
theorem counters_le_applyOps (st : St) (ops : List Op) (t : EntryType) :
    counterGet st.db.counters t ≤ counterGet (applyOps st ops).db.counters t := by
  induction ops generalizing st with
  | nil => exact Nat.le_refl _
  | cons op ops ih =>
    exact Nat.le_trans (counters_le_applyOp st op t) (ih (applyOp st op))

/-- C9: per-type counters are never decremented or reset by any store
operation — in particular `deleteEntry` leaves all counters unchanged — and
allocation only increments, so after a creation of type t every later state
reached by any operations has a strictly larger counter for t: the allocated
sequence number (the pre-increment counter value) is never handed out again. -/
theorem counters_never_reused (st : St) (ops : List Op) (t : EntryType)
    (dto : CreateEntryDto) (now : Nat) (h : dto.type = t) :
    counterGet st.db.counters t ≤ counterGet (applyOps st ops).db.counters t
      ∧ (∀ entryId, (deleteEntry st entryId).2.db.counters = st.db.counters)
      ∧ counterGet st.db.counters t
          < counterGet (applyOps (applyOp st (Op.create dto now)) ops).db.counters t := by
  refine ⟨counters_le_applyOps st ops t, fun entryId => rfl, ?_⟩
  subst h
  have h1 : counterGet (applyOp st (Op.create dto now)).db.counters dto.type
      = counterGet st.db.counters dto.type + 1 := by
    show counterGet (counterInc st.db.counters dto.type) dto.type
        = counterGet st.db.counters dto.type + 1
    cases dto.type <;> rfl
  have h2 := counters_le_applyOps (applyOp st (Op.create dto now)) ops dto.type
  omega

/-- C9 witness: after creating a bug report on the fresh store, the bug-report
counter is strictly above its old value even through an empty tail of
operations. -/
theorem counters_never_reused_witness :
    counterGet emptySt.db.counters EntryType.bug_report
      < counterGet (applyOps (applyOp emptySt
          (Op.create cexDto 5)) []).db.counters EntryType.bug_report := by
  exact (counters_never_reused emptySt [] EntryType.bug_report cexDto 5 rfl).2.2

end DevLog
